import Mathlib

/-!
Verification of the Chiasm-Explorer repository: a shallow embedding of the
linear verse-indexing model (`verse_indexing.py`), the chiastic pairing
engine (`psalm_chiasm_explorer.py`), the anchor-theme word-frequency
comparison (`chiasm_analysis.py`) and the translation layer's failure
handling (`translations.py`), together with theorems settling the frozen
claims about those components.

Python conventions used throughout the embedding: machine integers are
`Nat`/`Int` (Python ints are unbounded, so no wrap-around is modelled);
functions that can raise are embedded in `Except PyError`; the Python value
`None` is `Option.none`; Python dicts keyed by strings are either Lean
structures (fixed key sets) or insertion-ordered association lists
(dynamic key sets); Python `set` objects are `Finset` (CPython iterates a
set in an unspecified hash-derived order, so no list order is attributed
to a set).
-/

namespace ChiasmExplorer

/-- Error taxonomy: the spec's `UnknownScopeError`, `EmptyScopeError` and
`IndexOutOfRangeError` (spec section 7), plus Python's built-in `IndexError`
raised by an out-of-range list subscript. -/
inductive PyError where
  | unknownScopeError
  | emptyScopeError
  | indexOutOfRangeError
  | indexError
  deriving DecidableEq, Repr

/-- Python list subscription `xs[i]`: a negative index counts from the end;
an index out of range (after that adjustment) raises `IndexError`. -/
def pyGet {α : Type} (xs : List α) (i : Int) : Except PyError α :=
  let j : Int := if i < 0 then i + xs.length else i
  if h : 0 ≤ j ∧ j.toNat < xs.length then .ok (xs.get ⟨j.toNat, h.2⟩)
  else .error .indexError

/-- Python `str.strip()`: drop whitespace from both ends. -/
def pyStrip (s : String) : String :=
  String.mk (((s.toList.dropWhile Char.isWhitespace).reverse.dropWhile
    Char.isWhitespace).reverse)

/-- Whitespace chunks of a character list: each whitespace character
starts a fresh chunk, every other character extends the current front
chunk, so after filtering out empty chunks the result is the maximal runs
of non-whitespace characters, in order. -/
def splitChunks (l : List Char) : List (List Char) :=
  l.foldr
    (fun c acc =>
      if c.isWhitespace then [] :: acc
      else
        match acc with
        | [] => [[c]]
        | w :: ws => (c :: w) :: ws)
    [[]]

/-- Python `str.split()` with no arguments: split on runs of whitespace,
discarding empty pieces. -/
def pySplit (s : String) : List String :=
  ((splitChunks s.toList).filter (· ≠ [])).map String.mk

/-- Python zero-padded formatting `"{:02d}".format(n)`. -/
def pad2 (n : Nat) : String :=
  if n < 10 then "0" ++ toString n else toString n

/-- Per-book catalog data (`OT_BOOKS[book_id]` in `scopes.py`): display name,
chapter count, and a chapter-to-verse-count dict. -/
structure BookInfo where
  name : String
  chapters : Nat
  verses_per_chapter : List (Nat × Nat)
  deriving DecidableEq, Inhabited, Repr

/-- The `OT_BOOKS` dict: book id to `BookInfo` (external data from
`scopes.py`, kept abstract as an association list). -/
abbrev BookCatalog := List (String × BookInfo)

/-- The `SCOPES`-derived mapping behind `get_scope_books`: scope id to its
ordered list of book ids. -/
abbrev ScopeTable := List (String × List String)

/-- Modelled from the spec: `get_verse_ref` lives in `scopes.py`, which is
not among the sources; the spec only calls it a derived canonical string
reference for a (book, chapter, verse) triple, and the repository's
`translations.py` renders such references as `BOOK.CC.VV`, which is the
format adopted here. -/
def get_verse_ref (book_id : String) (chapter verse : Nat) : String :=
  book_id ++ "." ++ pad2 chapter ++ "." ++ pad2 verse

/-- One entry of `VerseIndex.verse_list`: the verse dict built in
`_build_verse_list`. -/
structure Verse where
  book_id : String
  book_name : String
  chapter : Nat
  verse : Nat
  ref : String
  index : Nat
  deriving DecidableEq, Inhabited, Repr

/-- The (chapter, verse) pairs of one book, chapters `1..chapters` in order,
verses `1..verses_per_chapter.get(chapter, 0)` in order — the two inner
loops of `_build_verse_list`. -/
def bookChapterVerses (bi : BookInfo) : List (Nat × Nat) :=
  (List.range bi.chapters).flatMap (fun c =>
    (List.range ((bi.verses_per_chapter.lookup (c + 1)).getD 0)).map
      (fun v => (c + 1, v + 1)))

/-- Verse dicts of one book appended with running indices starting at
`start` — each appended dict carries `index = len(verses)` at append time. -/
def versesFrom (book_id bname : String) (start : Nat) :
    List (Nat × Nat) → List Verse
  | [] => []
  | (c, v) :: rest =>
    ⟨book_id, bname, c, v, get_verse_ref book_id c v, start⟩ ::
      versesFrom book_id bname (start + 1) rest

/-- The loop body of `_build_verse_list` for one book id: skip it when it
is not in `OT_BOOKS` (`continue`), otherwise append all its verses with the
running index. -/
def addBookVerses (cat : BookCatalog) (verses : List Verse)
    (book_id : String) : List Verse :=
  match cat.lookup book_id with
  | none => verses
  | some bi =>
    verses ++ versesFrom book_id bi.name verses.length (bookChapterVerses bi)

/-- `VerseIndex._build_verse_list`: the outer loop over the scope's book
ids, starting from the empty verse list. -/
def build_verse_list (cat : BookCatalog) (books : List String) : List Verse :=
  books.foldl (addBookVerses cat) []

/-- Modelled from the spec: `get_scope_books` lives in `scopes.py`, which is
not among the sources; per the spec (section 6) the Scope Catalog lookup
resolves a scope id to its ordered book list and fails with
`UnknownScopeError` for unrecognized ids. -/
def get_scope_books (scopes : ScopeTable) (scope_id : String) :
    Except PyError (List String) :=
  match scopes.lookup scope_id with
  | some books => .ok books
  | none => .error .unknownScopeError

/-- The `VerseIndex` object: `scope_id`, `books` and `verse_list` fields. -/
structure VerseIndex where
  scope_id : String
  books : List String
  verse_list : List Verse
  deriving DecidableEq, Repr

/-- `VerseIndex.__init__`: resolve the scope to its books, then build the
verse list; the only failure is the scope lookup (there is no emptiness
check in the constructor). -/
def verseIndexInit (scopes : ScopeTable) (cat : BookCatalog)
    (scope_id : String) : Except PyError VerseIndex := do
  let books ← get_scope_books scopes scope_id
  .ok ⟨scope_id, books, build_verse_list cat books⟩

/-- `VerseIndex.get_verse_count`. -/
def get_verse_count (vi : VerseIndex) : Nat := vi.verse_list.length

/-- `VerseIndex.get_verse_by_index`: the guarded lookup; inside the guard
the subscript is in range, outside it the function returns Python `None` —
no exception is raised anywhere in the body, hence the `.ok` result in
both branches. -/
def get_verse_by_index (vs : List Verse) (index : Int) :
    Except PyError (Option Verse) :=
  if 0 ≤ index ∧ index < (vs.length : Int) then (pyGet vs index).map some
  else .ok none

/-- `VerseIndex.get_verse_by_ref`: linear scan, first verse whose `ref`
matches, Python `None` when none does. -/
def get_verse_by_ref (vs : List Verse) (ref : String) : Option Verse :=
  vs.find? (fun verse => verse.ref = ref)

/-- `VerseIndex.get_index_by_ref`: the found verse's index, `-1` when the
scan finds nothing. -/
def get_index_by_ref (vs : List Verse) (ref : String) : Int :=
  match get_verse_by_ref vs ref with
  | some verse => verse.index
  | none => -1

/-- `VerseIndex.get_middle_verse`: `verse_list[n // 2]`. -/
def get_middle_verse (vs : List Verse) : Except PyError Verse :=
  pyGet vs ((vs.length / 2 : Nat) : Int)

/-- The dict returned by `VerseIndex.get_quartile_verses`. -/
structure QuartileVerses where
  Q1 : Verse
  Q2 : Verse
  Q3 : Verse
  deriving DecidableEq, Repr

/-- `VerseIndex.get_quartile_verses`: `verse_list[n // 4]`,
`verse_list[n // 2]`, `verse_list[3 * n // 4]`. -/
def get_quartile_verses (vs : List Verse) : Except PyError QuartileVerses := do
  let n := vs.length
  let q1 ← pyGet vs ((n / 4 : Nat) : Int)
  let q2 ← pyGet vs ((n / 2 : Nat) : Int)
  let q3 ← pyGet vs ((3 * n / 4 : Nat) : Int)
  .ok ⟨q1, q2, q3⟩

/-- The dict returned by `VerseIndex.get_chiasm_anchors`. -/
structure ChiasmAnchors where
  first : Verse
  Q1 : Verse
  Q2_middle : Verse
  Q3 : Verse
  last : Verse
  deriving DecidableEq, Repr

/-- `VerseIndex.get_chiasm_anchors`: `verse_list[0]`, `verse_list[n // 4]`,
`verse_list[n // 2]`, `verse_list[3 * n // 4]`, `verse_list[n - 1]` (the
last subscript is Python int arithmetic, so it is `-1` when `n = 0`). -/
def get_chiasm_anchors (vs : List Verse) : Except PyError ChiasmAnchors := do
  let n := vs.length
  let f ← pyGet vs ((0 : Nat) : Int)
  let q1 ← pyGet vs ((n / 4 : Nat) : Int)
  let q2 ← pyGet vs ((n / 2 : Nat) : Int)
  let q3 ← pyGet vs ((3 * n / 4 : Nat) : Int)
  let l ← pyGet vs ((n : Int) - 1)
  .ok ⟨f, q1, q2, q3, l⟩

/-- One parsed psalm verse (`parse_psalm_sefaria` output dict), restricted to
the fields the pairing engine touches. -/
structure PsalmVerse where
  verse : Nat
  hebrew : String
  english : String
  hebrew_words : List String
  deriving DecidableEq, Inhabited, Repr

/-- The comparison-key set of one verse:
`set(word.strip() for word in v["hebrew_words"] if word.strip())` —
stripped tokens, empties discarded, collected into a Python set (a `Finset`,
since CPython set iteration order is unspecified). -/
def pairWords (v : PsalmVerse) : Finset String :=
  ((v.hebrew_words.map pyStrip).filter (· ≠ "")).toFinset

/-- One pairing dict produced by `compute_pairings`. The Python code
materializes `shared_lemmas` and `shared_hebrew` as lists drawn from a set
in unspecified set-iteration order; only their set content is determined by
the code, so both are embedded as finite sets. -/
structure Pairing where
  type : String
  verse_1 : PsalmVerse
  verse_2 : Option PsalmVerse
  shared_lemmas : Finset (String × String)
  shared_hebrew : Finset String
  deriving DecidableEq, Inhabited

/-- The loop body of `compute_pairings` at loop position `i`: pair
`psalm_data[i]` with `psalm_data[n - 1 - i]`, tag it `Outer Mirror` for
`i = 0` and `Quartile Echo` otherwise, and take the intersection of the two
comparison-key sets as the shared words. -/
def mirrorPair (psalm_data : List PsalmVerse) (i : Nat) : Pairing :=
  let n := psalm_data.length
  let v1 := psalm_data.getD i default
  let v2 := psalm_data.getD (n - 1 - i) default
  let shared := pairWords v1 ∩ pairWords v2
  { type := if i = 0 then "Outer Mirror" else "Quartile Echo",
    verse_1 := v1, verse_2 := some v2,
    shared_lemmas := shared.image (fun word => (word, word)),
    shared_hebrew := shared }

/-- The `Center Hinge` entry for an odd-length psalm: the sole middle verse
`psalm_data[n // 2]`, no partner, empty shared sets. -/
def centerHinge (psalm_data : List PsalmVerse) : Pairing :=
  { type := "Center Hinge",
    verse_1 := psalm_data.getD (psalm_data.length / 2) default,
    verse_2 := none, shared_lemmas := ∅, shared_hebrew := ∅ }

/-- `compute_pairings`: the mirror pairs for `i in range(n // 2)`, plus a
final `Center Hinge` entry when `n` is odd. -/
def compute_pairings (psalm_data : List PsalmVerse) : List Pairing :=
  let n := psalm_data.length
  let pairs := (List.range (n / 2)).map (mirrorPair psalm_data)
  if n % 2 = 1 then pairs ++ [centerHinge psalm_data] else pairs

/-- First-occurrence deduplication, with an accumulator of tokens already
seen. -/
def firstOccurAux (seen : List String) : List String → List String
  | [] => []
  | a :: as =>
    if a ∈ seen then firstOccurAux seen as
    else a :: firstOccurAux (a :: seen) as

/-- First-occurrence deduplication of a token list (keeps the first copy of
every token, in order of first occurrence). -/
def firstOccur (l : List String) : List String := firstOccurAux [] l

/-- Modelled from the spec (for comparison with the code): the display list
the spec prescribes for a mirror pair's shared tokens — verse_a's
comparison-key list in verse_a's token order, first occurrence winning,
restricted to keys also present in verse_b. -/
def specSharedDisplay (wa wb : List String) : List String :=
  (firstOccur ((wa.map pyStrip).filter (· ≠ ""))).filter
    (fun w => w ∈ (wb.map pyStrip).filter (· ≠ ""))

/-- HTML-tag removal `re.sub(r"<[^>]+>", "", s)` on a character list: a
`<`, at least one non-`>` character, then `>` is dropped; a `<` with no
such closing match is kept. -/
def stripTagsAux : List Char → List Char
  | [] => []
  | c :: rest =>
    if c = '<' then
      let inner := rest.takeWhile (· ≠ '>')
      if 1 ≤ inner.length ∧ inner.length < rest.length then
        stripTagsAux (rest.drop (inner.length + 1))
      else c :: stripTagsAux rest
    else c :: stripTagsAux rest
termination_by l => l.length
decreasing_by
  · simp only [List.length_cons, List.length_drop]; omega
  · simp only [List.length_cons]; omega
  · simp only [List.length_cons]; omega

/-- HTML-tag removal on strings. -/
def stripTags (s : String) : String := String.mk (stripTagsAux s.toList)

/-- Python substring membership `pat in s`. -/
def strContainsAux (pat : List Char) : List Char → Bool
  | [] => pat.isPrefixOf []
  | c :: rest => pat.isPrefixOf (c :: rest) || strContainsAux pat rest

/-- Python substring membership `pat in s` on strings. -/
def strContains (s pat : String) : Bool := strContainsAux pat.toList s.toList

/-- A JSON text field as the Sefaria code inspects it: a list of strings, a
single string, or absent/other (Python `None` or any non-list non-string
value, for which both `isinstance` checks fail). -/
inductive PyText where
  | ofList (l : List String)
  | ofStr (s : String)
  | absent
  deriving DecidableEq, Inhabited, Repr

/-- The `isinstance`-cascade used for `data["he"]`, version texts and the
fallback `data.get("text", "")`: first element of a non-empty list, the
string itself, or `""`. -/
def extractText : PyText → String
  | .ofList (x :: _) => x
  | .ofList [] => ""
  | .ofStr s => s
  | .absent => ""

/-- One entry of the Sefaria response's `versions` list. -/
structure SefariaVersion where
  versionTitle : String
  text : PyText
  deriving DecidableEq, Inhabited, Repr

/-- The fields of a parsed Sefaria API response that
`get_sefaria_verse` reads: `he`, the optional `versions` list, and the
default-English `text`. -/
structure SefariaData where
  he : PyText
  versions : Option (List SefariaVersion)
  text : PyText
  deriving DecidableEq, Inhabited, Repr

/-- The body of a bible-api.com response: its optional `text` field. -/
structure WebData where
  text : Option String
  deriving DecidableEq, Inhabited, Repr

/-- The dict `get_sefaria_verse` returns. -/
structure SefariaResult where
  hebrew : String
  jps1917 : String
  transliteration : String
  ref : String
  deriving DecidableEq, Inhabited, Repr

/-- `TranslationService.get_sefaria_verse`: the remote fetch is a
parameter (`.error` covers any exception in the request, status check or
JSON decode, all caught by the `try`/`except`); on failure the placeholder
dict is returned; on success the Hebrew text, the first `versions` entry
whose title contains `JPS` (with the default English fallback when the
extracted JPS text is empty), and the Hebrew doubling as transliteration. -/
def get_sefaria_verse (book_id : String) (chapter verse : Nat)
    (resp : Except Unit SefariaData) : SefariaResult :=
  match resp with
  | .error _ =>
    { hebrew := "[Hebrew text unavailable]",
      jps1917 := "[Translation unavailable]",
      transliteration := "",
      ref := get_verse_ref book_id chapter verse }
  | .ok data =>
    let hebrew := stripTags (extractText data.he)
    let jpsFound :=
      match data.versions with
      | some vsns =>
        match vsns.find? (fun vn => strContains vn.versionTitle "JPS") with
        | some vn => stripTags (extractText vn.text)
        | none => ""
      | none => ""
    let jps1917 :=
      if jpsFound = "" then stripTags (extractText data.text) else jpsFound
    { hebrew := hebrew, jps1917 := jps1917, transliteration := hebrew,
      ref := get_verse_ref book_id chapter verse }

/-- `TranslationService.get_web_translation`: on any exception the sentinel
string is returned; on success the response's `text` field (defaulting to
`""`), stripped and tag-cleaned. -/
def get_web_translation (resp : Except Unit WebData) : String :=
  match resp with
  | .error _ => "[WEB translation unavailable]"
  | .ok data => stripTags (pyStrip (data.text.getD ""))

/-- The dict `get_verse_all_translations` returns: the five text forms. -/
structure TransRecord where
  hebrew : String
  transliteration : String
  jps1917 : String
  web : String
  ref : String
  deriving DecidableEq, Inhabited, Repr

/-- `TranslationService.get_verse_all_translations`: combine the Sefaria
record and the WEB translation into the full five-field record. -/
def get_verse_all_translations (book_id : String) (chapter verse : Nat)
    (sefResp : Except Unit SefariaData) (webResp : Except Unit WebData) :
    TransRecord :=
  let sefaria_data := get_sefaria_verse book_id chapter verse sefResp
  let web_text := get_web_translation webResp
  { hebrew := sefaria_data.hebrew,
    transliteration := sefaria_data.transliteration,
    jps1917 := sefaria_data.jps1917,
    web := web_text,
    ref := sefaria_data.ref }

/-- One enriched anchor dict appended by
`ChiasmAnalyzer.get_full_chiasm_anchors` (also the shape
`compare_anchor_themes` consumes through its `hebrew` key). -/
structure ReportEntry where
  position : String
  key : String
  verse_info : Verse
  index : Nat
  hebrew : String
  transliteration : String
  jps1917 : String
  web : String
  interpretation_note : String
  deriving DecidableEq, Inhabited, Repr

/-- One enriched anchor entry: the translation record for the anchor's
(book, chapter, verse), wrapped with its position label and note. -/
def mkReportEntry (sefFetch : String → Nat → Nat → Except Unit SefariaData)
    (webFetch : String → Nat → Nat → Except Unit WebData)
    (key position note : String) (vi : Verse) : ReportEntry :=
  let verse_data := get_verse_all_translations vi.book_id vi.chapter vi.verse
    (sefFetch vi.book_id vi.chapter vi.verse)
    (webFetch vi.book_id vi.chapter vi.verse)
  { position := position, key := key, verse_info := vi, index := vi.index,
    hebrew := verse_data.hebrew,
    transliteration := verse_data.transliteration,
    jps1917 := verse_data.jps1917, web := verse_data.web,
    interpretation_note := note }

/-- `ChiasmAnalyzer.get_full_chiasm_anchors`: the five anchors from
`get_chiasm_anchors`, each enriched with a translation round-trip (the two
remote fetchers are parameters) and the fixed `position_names` labels, in
the dict's insertion order first, Q1, Q2_middle, Q3, last. -/
def get_full_chiasm_anchors (vs : List Verse)
    (sefFetch : String → Nat → Nat → Except Unit SefariaData)
    (webFetch : String → Nat → Nat → Except Unit WebData) :
    Except PyError (List ReportEntry) := do
  let anchors ← get_chiasm_anchors vs
  let mk := mkReportEntry sefFetch webFetch
  .ok
    [mk "first" "Opening"
        "The beginning - sets the stage for the chiastic structure"
        anchors.first,
      mk "Q1" "First Quartile"
        "Introduces major themes pointing toward the center" anchors.Q1,
      mk "Q2_middle" "MIDDLE/CENTER"
        "The theological and structural hinge - the key to interpretation"
        anchors.Q2_middle,
      mk "Q3" "Third Quartile"
        "Mirrors Q1, resolving and echoing earlier themes" anchors.Q3,
      mk "last" "Closing" "Conclusion - completes the chiastic arc"
        anchors.last]

/-- The retained tokens of one anchor's Hebrew text: whitespace-split,
stripped, and kept only when longer than 2 characters (the loop body of
`compare_anchor_themes`). -/
def retainedTokens (hebrew : String) : List String :=
  ((pySplit hebrew).map pyStrip).filter (fun word => 2 < word.length)

/-- All retained tokens across the anchor list, in iteration order (outer
loop over anchors, inner loop over each anchor's tokens). -/
def allRetainedTokens (anchors : List ReportEntry) : List String :=
  anchors.flatMap (fun anchor => retainedTokens anchor.hebrew)

/-- One step of `word_freq[word] = word_freq.get(word, 0) + 1` on an
insertion-ordered dict: increment in place when the key is present, append
`(word, 1)` otherwise. -/
def updateFreq (d : List (String × Nat)) (word : String) :
    List (String × Nat) :=
  if (d.lookup word).isSome then
    d.map (fun p => if p.1 = word then (p.1, p.2 + 1) else p)
  else d ++ [(word, 1)]

/-- The `word_freq` dict after both loops of `compare_anchor_themes`. -/
def wordFreq (anchors : List ReportEntry) : List (String × Nat) :=
  (allRetainedTokens anchors).foldl updateFreq []

/-- The dict `compare_anchor_themes` returns. -/
structure ThemeComparison where
  total_unique_words : Nat
  repeated_words : List (String × Nat)
  interpretation : String
  deriving DecidableEq, Inhabited, Repr

/-- `ChiasmAnalyzer.compare_anchor_themes`: count every retained token's
occurrences across all anchors into `word_freq`, keep the entries with
count at least 2 as `repeated_words`, and report the dict's size as
`total_unique_words`. -/
def compare_anchor_themes (anchors : List ReportEntry) : ThemeComparison :=
  let word_freq := wordFreq anchors
  { total_unique_words := word_freq.length,
    repeated_words := word_freq.filter (fun p => 2 ≤ p.2),
    interpretation :=
      "Repeated Hebrew words across anchor points often indicate intentional chiastic connections." }

/-! ## Helper lemmas -/

theorem getD_eq_get {α : Type} [Inhabited α] (xs : List α) (i : Nat)
    (h : i < xs.length) : xs.getD i default = xs.get ⟨i, h⟩ := by
  simp [List.getD_eq_getElem?_getD, List.getElem?_eq_getElem h]

theorem pyGet_coe_nat {α : Type} [Inhabited α] (xs : List α) (i : Nat)
    (h : i < xs.length) : pyGet xs (i : Int) = .ok (xs.getD i default) := by
  have h0 : ¬ ((i : Int) < 0) := by omega
  have h1 : (0 : Int) ≤ (i : Int) ∧ (i : Int).toNat < xs.length := by
    constructor
    · omega
    · simpa using h
  simp only [pyGet, h0, if_false, dif_pos h1]
  rw [getD_eq_get xs i h]
  rfl

/-! ## C1: anchor positions -/

theorem get_chiasm_anchors_eq (vs : List Verse) (h : vs ≠ []) :
    get_chiasm_anchors vs = .ok
      ⟨vs.getD 0 default, vs.getD (vs.length / 4) default,
        vs.getD (vs.length / 2) default, vs.getD (3 * vs.length / 4) default,
        vs.getD (vs.length - 1) default⟩ := by
  have hn : 0 < vs.length := List.length_pos.mpr h
  have h2 : vs.length / 2 < vs.length := Nat.div_lt_self hn (by omega)
  have h4 : vs.length / 4 < vs.length := Nat.div_lt_self hn (by omega)
  have h34 : 3 * vs.length / 4 < vs.length :=
    Nat.div_lt_of_lt_mul (by omega)
  have hlast : vs.length - 1 < vs.length := by omega
  have elast : ((vs.length : Int) - 1) = ((vs.length - 1 : Nat) : Int) := by
    omega
  rw [get_chiasm_anchors, elast]
  rw [pyGet_coe_nat vs _ hn, pyGet_coe_nat vs _ h4, pyGet_coe_nat vs _ h2,
    pyGet_coe_nat vs _ h34, pyGet_coe_nat vs _ hlast]
  rfl

/-- C1: for every verse sequence of length `N ≥ 1`, `get_middle_verse`
returns the verse at position `N / 2`; `get_quartile_verses` returns the
verses at positions `N / 4`, `N / 2` and `3 * N / 4` as Q1, Q2, Q3; and
`get_chiasm_anchors` returns the verses at positions `0`, `N / 4`, `N / 2`,
`3 * N / 4` and `N - 1` as first, Q1, Q2_middle, Q3 and last — all with
integer floor division. -/
theorem c1_anchor_positions (vs : List Verse) (h : vs ≠ []) :
    get_middle_verse vs = .ok (vs.getD (vs.length / 2) default) ∧
    get_quartile_verses vs = .ok
      ⟨vs.getD (vs.length / 4) default, vs.getD (vs.length / 2) default,
        vs.getD (3 * vs.length / 4) default⟩ ∧
    get_chiasm_anchors vs = .ok
      ⟨vs.getD 0 default, vs.getD (vs.length / 4) default,
        vs.getD (vs.length / 2) default, vs.getD (3 * vs.length / 4) default,
        vs.getD (vs.length - 1) default⟩ := by
  have hn : 0 < vs.length := List.length_pos.mpr h
  have h2 : vs.length / 2 < vs.length := Nat.div_lt_self hn (by omega)
  have h4 : vs.length / 4 < vs.length := Nat.div_lt_self hn (by omega)
  have h34 : 3 * vs.length / 4 < vs.length :=
    Nat.div_lt_of_lt_mul (by omega)
  refine ⟨?_, ?_, get_chiasm_anchors_eq vs h⟩
  · rw [get_middle_verse, pyGet_coe_nat vs _ h2]
  · rw [get_quartile_verses]
    rw [pyGet_coe_nat vs _ h4, pyGet_coe_nat vs _ h2, pyGet_coe_nat vs _ h34]
    rfl

/-- A sample two-verse sequence for witnesses. -/
def sampleVerses : List Verse :=
  [⟨"GEN", "Genesis", 1, 1, "GEN.01.01", 0⟩,
    ⟨"GEN", "Genesis", 1, 2, "GEN.01.02", 1⟩]

/-- Witness for C1 at a concrete two-verse sequence. -/
theorem c1_anchor_positions_witness :
    sampleVerses ≠ [] ∧
    get_middle_verse sampleVerses =
      .ok (sampleVerses.getD (sampleVerses.length / 2) default) :=
  ⟨by decide, (c1_anchor_positions sampleVerses (by decide)).1⟩

/-! ## C4: lookup by index -/

/-- C4 counterexample: at the concrete out-of-range input `5` on a
two-verse sequence, `get_verse_by_index` returns Python `None` as an
ordinary value; it does not fail with `IndexOutOfRangeError`, contrary to
the claim. -/
theorem c4_counterexample :
    get_verse_by_index sampleVerses 5 = .ok none ∧
    get_verse_by_index sampleVerses 5 ≠ .error .indexOutOfRangeError := by
  have e : get_verse_by_index sampleVerses 5 = .ok none := rfl
  refine ⟨e, ?_⟩
  rw [e]
  exact fun h => Except.noConfusion h

/-- C4 amended: `get_verse_by_index` returns the verse at the given index
when `0 ≤ index < N`, and returns Python `None` (no exception of any kind)
when the index is outside `[0, N)`. -/
theorem c4_lookup_by_index (vs : List Verse) (i : Int) :
    (0 ≤ i ∧ i < (vs.length : Int) →
      get_verse_by_index vs i = .ok (some (vs.getD i.toNat default))) ∧
    (¬ (0 ≤ i ∧ i < (vs.length : Int)) →
      get_verse_by_index vs i = .ok none) := by
  constructor
  · intro h
    have hi : i = ((i.toNat : Nat) : Int) := by omega
    have hlt : i.toNat < vs.length := by omega
    rw [get_verse_by_index, if_pos h, hi, pyGet_coe_nat vs i.toNat hlt]
    rfl
  · intro h
    rw [get_verse_by_index, if_neg h]

/-- Witness for C4 amended at a concrete in-range input. -/
theorem c4_lookup_by_index_witness :
    ((0 : Int) ≤ 1 ∧ (1 : Int) < (sampleVerses.length : Int)) ∧
    get_verse_by_index sampleVerses 1 =
      .ok (some (sampleVerses.getD (1 : Int).toNat default)) :=
  ⟨by decide, (c4_lookup_by_index sampleVerses 1).1 (by decide)⟩

/-! ## C5: constructing the index -/

/-- C5 counterexample: a catalog in which the book `OBA` has zero chapters
makes the scope `edom` flatten to zero verses, yet `VerseIndex.__init__`
succeeds with an empty verse list — it does not fail with
`EmptyScopeError`, contrary to the claim. -/
theorem c5_counterexample :
    verseIndexInit [("edom", ["OBA"])] [("OBA", ⟨"Obadiah", 0, []⟩)] "edom" =
      .ok ⟨"edom", ["OBA"], []⟩ ∧
    verseIndexInit [("edom", ["OBA"])] [("OBA", ⟨"Obadiah", 0, []⟩)] "edom" ≠
      .error .emptyScopeError := by
  have e : verseIndexInit [("edom", ["OBA"])] [("OBA", ⟨"Obadiah", 0, []⟩)]
      "edom" = .ok ⟨"edom", ["OBA"], []⟩ := rfl
  refine ⟨e, ?_⟩
  rw [e]
  exact fun h => Except.noConfusion h

/-- C5 amended: `VerseIndex.__init__` fails with `UnknownScopeError` when
the scope id is not in the scope table (the table itself is modelled from
the spec, `scopes.py` being outside the sources), and otherwise succeeds
with the flattened verse list whatever its length — the constructor
performs no emptiness check. -/
theorem c5_init_scope (scopes : ScopeTable) (cat : BookCatalog)
    (scope_id : String) :
    (scopes.lookup scope_id = none →
      verseIndexInit scopes cat scope_id = .error .unknownScopeError) ∧
    (∀ books, scopes.lookup scope_id = some books →
      verseIndexInit scopes cat scope_id =
        .ok ⟨scope_id, books, build_verse_list cat books⟩) := by
  constructor
  · intro h
    simp only [verseIndexInit, get_scope_books, h]
    rfl
  · intro books h
    simp only [verseIndexInit, get_scope_books, h]
    rfl

/-- Witness for C5 amended: an unknown scope id fails with
`UnknownScopeError`. -/
theorem c5_init_scope_witness :
    (([] : ScopeTable).lookup "pentateuch" = none) ∧
    verseIndexInit [] [] "pentateuch" = .error .unknownScopeError :=
  ⟨rfl, (c5_init_scope [] [] "pentateuch").1 rfl⟩

/-! ## C7 and C9: the flattened sequence -/

theorem versesFrom_map_index (book_id bname : String) :
    ∀ (l : List (Nat × Nat)) (start : Nat),
      (versesFrom book_id bname start l).map (·.index) =
        List.range' start l.length
  | [], _ => rfl
  | (c, v) :: rest, start => by
    simp [versesFrom, versesFrom_map_index book_id bname rest (start + 1),
      List.range'_succ]

theorem versesFrom_length (book_id bname : String) :
    ∀ (l : List (Nat × Nat)) (start : Nat),
      (versesFrom book_id bname start l).length = l.length
  | [], _ => rfl
  | _ :: rest, start => by
    simp [versesFrom, versesFrom_length book_id bname rest (start + 1)]

theorem addBookVerses_map_index (cat : BookCatalog) (verses : List Verse)
    (book_id : String)
    (h : verses.map (·.index) = List.range' 0 verses.length) :
    (addBookVerses cat verses book_id).map (·.index) =
      List.range' 0 (addBookVerses cat verses book_id).length := by
  rw [addBookVerses]
  match cat.lookup book_id with
  | none => exact h
  | some bi =>
    rw [List.map_append, h,
      versesFrom_map_index book_id bi.name (bookChapterVerses bi)
        verses.length,
      List.length_append,
      versesFrom_length book_id bi.name (bookChapterVerses bi) verses.length]
    have := List.range'_append_1 0 verses.length
      (bookChapterVerses bi).length
    simpa [Nat.add_comm] using this

theorem foldl_addBookVerses_map_index (cat : BookCatalog) :
    ∀ (books : List String) (verses : List Verse),
      verses.map (·.index) = List.range' 0 verses.length →
      (books.foldl (addBookVerses cat) verses).map (·.index) =
        List.range' 0 (books.foldl (addBookVerses cat) verses).length
  | [], _, h => h
  | b :: books, verses, h => by
    rw [List.foldl_cons]
    exact foldl_addBookVerses_map_index cat books _
      (addBookVerses_map_index cat verses b h)

/-- C7: for every catalog and book list, the `index` fields along the
flattened verse sequence are exactly `0, 1, ..., N - 1` in order — the
verse stored at position `i` carries index `i`, the index values are dense
with no duplicates, and they are strictly increasing along the
(book, chapter, verse) iteration order of the sequence. -/
theorem c7_index_density (cat : BookCatalog) (books : List String) :
    (build_verse_list cat books).map (·.index) =
      List.range (build_verse_list cat books).length := by
  rw [List.range_eq_range']
  exact foldl_addBookVerses_map_index cat books [] rfl

/-- C9: a book id absent from the catalog contributes nothing: the
flattened sequence with the unknown book spliced anywhere into the book
list equals the sequence without it, so no error is raised and the
surviving verses keep their exact indices. -/
theorem c9_unknown_book_skipped (cat : BookCatalog)
    (bs1 bs2 : List String) (bad : String) (h : cat.lookup bad = none) :
    build_verse_list cat (bs1 ++ bad :: bs2) =
      build_verse_list cat (bs1 ++ bs2) := by
  rw [build_verse_list, build_verse_list, List.foldl_append,
    List.foldl_append, List.foldl_cons]
  have : addBookVerses cat (bs1.foldl (addBookVerses cat) []) bad =
      bs1.foldl (addBookVerses cat) [] := by
    rw [addBookVerses, h]
  rw [this]

/-- Witness for C9 at a concrete catalog: splicing the unknown id `XXX`
between two known books leaves the flattened sequence unchanged. -/
theorem c9_unknown_book_skipped_witness :
    ([("GEN", ⟨"Genesis", 1, [(1, 2)]⟩)] : BookCatalog).lookup "XXX" =
      none ∧
    build_verse_list [("GEN", ⟨"Genesis", 1, [(1, 2)]⟩)]
        (["GEN"] ++ "XXX" :: ["GEN"]) =
      build_verse_list [("GEN", ⟨"Genesis", 1, [(1, 2)]⟩)] (["GEN"] ++ ["GEN"]) :=
  ⟨rfl, c9_unknown_book_skipped _ ["GEN"] ["GEN"] "XXX" rfl⟩

/-! ## C10: lookup by reference string -/

theorem find?_of_filter_singleton {α : Type} (p : α → Bool) :
    ∀ (l : List α) (a : α), l.filter p = [a] → l.find? p = some a
  | [], a, h => by simp at h
  | b :: t, a, h => by
    by_cases hb : p b
    · rw [List.filter_cons_of_pos hb] at h
      rw [List.find?_cons_of_pos t hb]
      exact congrArg some (List.cons_eq_cons.mp h).1
    · rw [List.filter_cons_of_neg hb] at h
      rw [List.find?_cons_of_neg t hb]
      exact find?_of_filter_singleton p t a h

/-- C10: `get_index_by_ref` returns `-1` (an ordinary sentinel value, not
an error) when no verse of the sequence carries the requested reference,
and returns the index of the unique matching verse when exactly one verse
does. -/
theorem c10_index_by_ref (vs : List Verse) (ref : String) :
    ((∀ v ∈ vs, v.ref ≠ ref) → get_index_by_ref vs ref = -1) ∧
    (∀ v, vs.filter (fun u => u.ref = ref) = [v] →
      get_index_by_ref vs ref = v.index) := by
  constructor
  · intro h
    have : get_verse_by_ref vs ref = none := by
      rw [get_verse_by_ref, List.find?_eq_none]
      intro v hv
      simpa using h v hv
    rw [get_index_by_ref, this]
  · intro v h
    have : get_verse_by_ref vs ref = some v :=
      find?_of_filter_singleton _ vs v h
    rw [get_index_by_ref, this]

/-- Witness for C10: both branches at a concrete sequence — a reference
present exactly once yields its index, an absent one yields `-1`. -/
theorem c10_index_by_ref_witness :
    (sampleVerses.filter (fun u => u.ref = "GEN.01.02") =
      [⟨"GEN", "Genesis", 1, 2, "GEN.01.02", 1⟩]) ∧
    get_index_by_ref sampleVerses "GEN.01.02" =
      (⟨"GEN", "Genesis", 1, 2, "GEN.01.02", 1⟩ : Verse).index ∧
    get_index_by_ref sampleVerses "PSA.23.01" = -1 :=
  ⟨by decide,
    (c10_index_by_ref sampleVerses "GEN.01.02").2 _ (by decide),
    (c10_index_by_ref sampleVerses "PSA.23.01").1 (by decide)⟩

/-! ## C2: pairing structure -/

theorem compute_pairings_length (pd : List PsalmVerse) :
    (compute_pairings pd).length = pd.length / 2 + pd.length % 2 := by
  rw [compute_pairings]
  rcases Nat.mod_two_eq_zero_or_one pd.length with h | h <;> simp [h]

theorem compute_pairings_getD_lt (pd : List PsalmVerse) (i : Nat)
    (h : i < pd.length / 2) :
    (compute_pairings pd).getD i default = mirrorPair pd i := by
  have hlen : i < ((List.range (pd.length / 2)).map (mirrorPair pd)).length :=
    by simpa using h
  rw [compute_pairings]
  split
  · rw [List.getD_eq_getElem?_getD, List.getElem?_append_left hlen]
    simp [List.getElem?_range h]
  · rw [List.getD_eq_getElem?_getD]
    simp [List.getElem?_range h]

theorem compute_pairings_getD_hinge (pd : List PsalmVerse)
    (h : pd.length % 2 = 1) :
    (compute_pairings pd).getD (pd.length / 2) default = centerHinge pd := by
  rw [compute_pairings]
  simp only [if_pos h]
  rw [List.getD_eq_getElem?_getD, List.getElem?_append_right (by simp)]
  simp

/-- C2: for every ordered verse list of length `n`, `compute_pairings`
returns exactly `n / 2` mirror pairs (plus one hinge when `n` is odd); the
pair at loop position `i` references the verses at positions `i` and
`n - 1 - i`, tagged `Outer Mirror` at `i = 0` and `Quartile Echo` after;
when `n` is odd one final `Center Hinge` entry wraps the verse at `n / 2`
with no partner and empty shared-token sets; `n = 0` yields `[]` and
`n = 1` yields exactly the one hinge entry and no mirror pairs. -/
theorem c2_pairing_structure (pd : List PsalmVerse) :
    (compute_pairings pd).length = pd.length / 2 + pd.length % 2 ∧
    (∀ i, i < pd.length / 2 →
      ((compute_pairings pd).getD i default).type =
        (if i = 0 then "Outer Mirror" else "Quartile Echo") ∧
      ((compute_pairings pd).getD i default).verse_1 = pd.getD i default ∧
      ((compute_pairings pd).getD i default).verse_2 =
        some (pd.getD (pd.length - 1 - i) default)) ∧
    (pd.length % 2 = 1 →
      (compute_pairings pd).getD (pd.length / 2) default =
        { type := "Center Hinge",
          verse_1 := pd.getD (pd.length / 2) default,
          verse_2 := none, shared_lemmas := ∅, shared_hebrew := ∅ }) ∧
    (pd.length = 0 → compute_pairings pd = []) ∧
    (pd.length = 1 →
      compute_pairings pd =
        [{ type := "Center Hinge", verse_1 := pd.getD 0 default,
           verse_2 := none, shared_lemmas := ∅, shared_hebrew := ∅ }]) := by
  refine ⟨compute_pairings_length pd, ?_, ?_, ?_, ?_⟩
  · intro i h
    rw [compute_pairings_getD_lt pd i h]
    exact ⟨rfl, rfl, rfl⟩
  · intro h
    rw [compute_pairings_getD_hinge pd h]
    rfl
  · intro h
    have := compute_pairings_length pd
    rw [h] at this
    exact List.length_eq_zero.mp this
  · intro h
    simp [compute_pairings, centerHinge, h]

/-- A sample three-verse psalm for witnesses. -/
def samplePsalm : List PsalmVerse :=
  [⟨1, "aaa bbb", "first verse", ["aaa", "bbb"]⟩,
    ⟨2, "ccc", "second verse", ["ccc"]⟩,
    ⟨3, "bbb aaa", "third verse", ["bbb", "aaa"]⟩]

/-- Witness for C2 at a concrete three-verse psalm: the first pair is the
Outer Mirror and the final entry is the Center Hinge on the middle verse. -/
theorem c2_pairing_structure_witness :
    (0 < samplePsalm.length / 2 ∧ samplePsalm.length % 2 = 1) ∧
    ((compute_pairings samplePsalm).getD 0 default).type = "Outer Mirror" ∧
    (compute_pairings samplePsalm).getD (samplePsalm.length / 2) default =
      { type := "Center Hinge",
        verse_1 := samplePsalm.getD (samplePsalm.length / 2) default,
        verse_2 := none, shared_lemmas := ∅, shared_hebrew := ∅ } :=
  ⟨⟨by decide, by decide⟩,
    by simpa using ((c2_pairing_structure samplePsalm).2.1 0 (by decide)).1,
    (c2_pairing_structure samplePsalm).2.2.1 (by decide)⟩

/-! ## C6: shared tokens of a mirror pair -/

/-- C6 amended: for every mirror pair, the shared-token collection is
exactly the set intersection of the two verses' comparison-key sets (a
token is shared iff it is a stripped non-empty token of both verses), each
shared key appearing once, and `shared_lemmas` pairs every shared key with
itself; the materialization order of those sets in the Python lists is the
unspecified set-iteration order, so only the set content is determined. -/
theorem c6_shared_tokens (pd : List PsalmVerse) (i : Nat)
    (h : i < pd.length / 2) :
    (∀ w : String,
      w ∈ ((compute_pairings pd).getD i default).shared_hebrew ↔
        (w ∈ ((pd.getD i default).hebrew_words.map pyStrip).filter (· ≠ "") ∧
          w ∈ ((pd.getD (pd.length - 1 - i) default).hebrew_words.map
            pyStrip).filter (· ≠ ""))) ∧
    ((compute_pairings pd).getD i default).shared_lemmas =
      ((compute_pairings pd).getD i default).shared_hebrew.image
        (fun w => (w, w)) := by
  rw [compute_pairings_getD_lt pd i h]
  refine ⟨fun w => ?_, rfl⟩
  simp [mirrorPair, pairWords]

/-- Witness for C6 amended at the concrete three-verse psalm: in the outer
mirror pair of `samplePsalm`, `aaa` is shared. -/
theorem c6_shared_tokens_witness :
    (0 < samplePsalm.length / 2) ∧
    ("aaa" ∈ ((compute_pairings samplePsalm).getD 0 default).shared_hebrew ↔
      ("aaa" ∈ ((samplePsalm.getD 0 default).hebrew_words.map
          pyStrip).filter (· ≠ "") ∧
        "aaa" ∈ ((samplePsalm.getD (samplePsalm.length - 1 - 0)
          default).hebrew_words.map pyStrip).filter (· ≠ ""))) :=
  ⟨by decide, (c6_shared_tokens samplePsalm 0 (by decide)).1 "aaa"⟩

/-- Two-verse psalms for the C6 counterexample: same token sets, but the
first verse's token order differs. -/
def psalmAB : List PsalmVerse :=
  [⟨1, "aaa bbb", "", ["aaa", "bbb"]⟩, ⟨2, "aaa bbb", "", ["aaa", "bbb"]⟩]

/-- Second psalm for the C6 counterexample: verse 1 lists its tokens in the
opposite order. -/
def psalmBA : List PsalmVerse :=
  [⟨1, "bbb aaa", "", ["bbb", "aaa"]⟩, ⟨2, "aaa bbb", "", ["aaa", "bbb"]⟩]

/-- C6 counterexample: no materialization of the code's shared-token set
can follow verse_a's token ordering on every input — the code computes the
shared list from the set intersection alone, and the two concrete psalms
`psalmAB` and `psalmBA` have equal intersections but demand different
spec-ordered displays (`["aaa", "bbb"]` versus `["bbb", "aaa"]`), so the
claim's ordering clause fails. -/
theorem c6_counterexample :
    ¬ ∃ materialize : Finset String → List String,
      ∀ (pd : List PsalmVerse) (p : Pairing), p ∈ compute_pairings pd →
        ∀ v2, p.verse_2 = some v2 →
          materialize p.shared_hebrew =
            specSharedDisplay p.verse_1.hebrew_words v2.hebrew_words := by
  rintro ⟨f, hf⟩
  have eA : compute_pairings psalmAB = [mirrorPair psalmAB 0] := by decide
  have eB : compute_pairings psalmBA = [mirrorPair psalmBA 0] := by decide
  have hA := hf psalmAB (mirrorPair psalmAB 0)
    (eA ▸ List.mem_singleton.mpr rfl) ⟨2, "aaa bbb", "", ["aaa", "bbb"]⟩
    (by decide)
  have hB := hf psalmBA (mirrorPair psalmBA 0)
    (eB ▸ List.mem_singleton.mpr rfl) ⟨2, "aaa bbb", "", ["aaa", "bbb"]⟩
    (by decide)
  have hsets : (mirrorPair psalmAB 0).shared_hebrew =
      (mirrorPair psalmBA 0).shared_hebrew := by decide
  have hdispA : specSharedDisplay (mirrorPair psalmAB 0).verse_1.hebrew_words
      ["aaa", "bbb"] = ["aaa", "bbb"] := by decide
  have hdispB : specSharedDisplay (mirrorPair psalmBA 0).verse_1.hebrew_words
      ["aaa", "bbb"] = ["bbb", "aaa"] := by decide
  rw [hdispA] at hA
  rw [hdispB, ← hsets] at hB
  rw [hA] at hB
  exact List.noConfusion hB (fun h1 _ => String.noConfusion h1
    (fun h2 => List.noConfusion h2 (fun h3 _ => Char.noConfusion h3
      (fun h4 => by exact absurd h4 (by decide)))))

/-! ## C3: anchor-theme word frequencies -/

theorem incr_map_fst (d : List (String × Nat)) (w : String) :
    (d.map (fun p => if p.1 = w then (p.1, p.2 + 1) else p)).map Prod.fst =
      d.map Prod.fst := by
  rw [List.map_map]
  refine List.map_congr_left fun p _ => ?_
  by_cases h : p.1 = w <;> simp [h]

theorem incr_lookup_self (d : List (String × Nat)) (w : String) :
    (d.map (fun p => if p.1 = w then (p.1, p.2 + 1) else p)).lookup w =
      (d.lookup w).map (· + 1) := by
  induction d with
  | nil => rfl
  | cons p t ih =>
    obtain ⟨k, v⟩ := p
    by_cases h : k = w
    · subst h
      simp [List.lookup_cons]
    · have h' : (w == k) = false := by simpa using Ne.symm h
      simp only [List.map_cons, if_neg h, List.lookup_cons, h']
      exact ih

theorem incr_lookup_other (d : List (String × Nat)) (w w' : String)
    (h : w' ≠ w) :
    (d.map (fun p => if p.1 = w then (p.1, p.2 + 1) else p)).lookup w' =
      d.lookup w' := by
  induction d with
  | nil => rfl
  | cons p t ih =>
    obtain ⟨k, v⟩ := p
    by_cases hk : k = w
    · subst hk
      have h' : (w' == k) = false := by simpa using h
      simp [List.lookup_cons, h', ih]
    · simp only [List.map_cons, if_neg hk, List.lookup_cons]
      by_cases hw : w' = k
      · simp [hw]
      · have h' : (w' == k) = false := by simpa using hw
        simp only [h']
        exact ih

theorem updateFreq_lookup_self (d : List (String × Nat)) (w : String) :
    (updateFreq d w).lookup w = some ((d.lookup w).getD 0 + 1) := by
  rw [updateFreq]
  split
  · next hs =>
    obtain ⟨c, hc⟩ := Option.isSome_iff_exists.mp hs
    rw [incr_lookup_self, hc]
    rfl
  · next hn =>
    have h0 : d.lookup w = none := Option.not_isSome_iff_eq_none.mp hn
    rw [List.lookup_append, h0]
    simp [List.lookup_cons]

theorem updateFreq_lookup_other (d : List (String × Nat)) (w w' : String)
    (h : w' ≠ w) : (updateFreq d w).lookup w' = d.lookup w' := by
  rw [updateFreq]
  split
  · exact incr_lookup_other d w w' h
  · have h' : (w' == w) = false := by simpa using h
    rw [List.lookup_append]
    simp [List.lookup_cons, h']

theorem updateFreq_map_fst (d : List (String × Nat)) (w : String) :
    (updateFreq d w).map Prod.fst =
      if (d.lookup w).isSome then d.map Prod.fst
      else d.map Prod.fst ++ [w] := by
  rw [updateFreq]
  split
  · exact incr_map_fst d w
  · rw [List.map_append]
    rfl

theorem foldl_updateFreq_nodup (toks : List String) :
    ∀ d : List (String × Nat), (d.map Prod.fst).Nodup →
      ((toks.foldl updateFreq d).map Prod.fst).Nodup := by
  induction toks with
  | nil => exact fun d h => h
  | cons a toks ih =>
    intro d h
    rw [List.foldl_cons]
    apply ih
    rw [updateFreq_map_fst]
    split
    · exact h
    · next hn =>
      have hmem : a ∉ d.map Prod.fst := by
        intro hmem
        apply hn
        rw [List.lookup_isSome_iff]
        obtain ⟨p, hp, hfst⟩ := List.mem_map.mp hmem
        exact ⟨p, hp, by simp [hfst]⟩
      simp [List.nodup_append, h, hmem]

theorem foldl_updateFreq_lookup (toks : List String) :
    ∀ (d : List (String × Nat)) (w : String),
      (toks.foldl updateFreq d).lookup w =
        if (d.lookup w).isSome ∨ w ∈ toks then
          some ((d.lookup w).getD 0 + toks.count w) else none := by
  induction toks with
  | nil =>
    intro d w
    cases hd : d.lookup w <;> simp [hd]
  | cons a toks ih =>
    intro d w
    rw [List.foldl_cons, ih]
    by_cases haw : w = a
    · subst haw
      rw [updateFreq_lookup_self]
      have hc : (w :: toks).count w = toks.count w + 1 := by
        simp [List.count_cons]
      rw [hc, if_pos (by simp), if_pos (Or.inr (List.mem_cons_self w toks))]
      simp only [Option.getD_some]
      congr 1
      omega
    · rw [updateFreq_lookup_other d a w haw]
      have hc : (a :: toks).count w = toks.count w := by
        simp [List.count_cons, haw]
      rw [hc]
      have hiff : ((d.lookup w).isSome = true ∨ w ∈ toks) ↔
          ((d.lookup w).isSome = true ∨ w ∈ a :: toks) := by
        simp [List.mem_cons, haw]
      exact if_congr hiff rfl rfl

theorem filter_lookup_of_nodup (p : String × Nat → Bool) :
    ∀ (l : List (String × Nat)) (w : String),
      (l.map Prod.fst).Nodup →
      (l.filter p).lookup w =
        match l.lookup w with
        | some c => if p (w, c) then some c else none
        | none => none := by
  intro l
  induction l with
  | nil => intro w _; rfl
  | cons q t ih =>
    intro w hnd
    obtain ⟨k, v⟩ := q
    rw [List.map_cons, List.nodup_cons] at hnd
    by_cases hw : w = k
    · subst hw
      cases hp : p (w, v)
      · rw [List.filter_cons_of_neg (by simp [hp])]
        have hnone : (t.filter p).lookup w = none := by
          rw [List.lookup_eq_none_iff]
          intro q hq
          have : q.1 ∈ t.map Prod.fst :=
            List.mem_map.mpr ⟨q, List.mem_of_mem_filter hq, rfl⟩
          have : w ≠ q.1 := fun he => hnd.1 (he ▸ this)
          simpa using this
        rw [hnone]
        simp [List.lookup_cons, hp]
      · rw [List.filter_cons_of_pos (by simp [hp])]
        simp [List.lookup_cons, hp]
    · have h' : (w == k) = false := by simpa using hw
      have step : (t.filter p).lookup w =
          match t.lookup w with
          | some c => if p (w, c) then some c else none
          | none => none := ih w hnd.2
      cases hp : p (k, v)
      · rw [List.filter_cons_of_neg (by simp [hp]), step]
        simp [List.lookup_cons, h']
      · rw [List.filter_cons_of_pos (by simp [hp])]
        simp only [List.lookup_cons, h']
        exact step

theorem wordFreq_nodup (anchors : List ReportEntry) :
    ((wordFreq anchors).map Prod.fst).Nodup :=
  foldl_updateFreq_nodup (allRetainedTokens anchors) [] (by simp)

theorem wordFreq_lookup (anchors : List ReportEntry) (x : String) :
    (wordFreq anchors).lookup x =
      if x ∈ allRetainedTokens anchors then
        some ((allRetainedTokens anchors).count x) else none := by
  rw [wordFreq, foldl_updateFreq_lookup]
  simp

/-- C3 amended: `compare_anchor_themes` maps `w` to `c` in
`repeated_words` exactly when `c` is the total occurrence count of the
retained token `w` across all anchors — counting repeats inside a single
anchor — and `c ≥ 2`; `total_unique_words` is the number of distinct
retained tokens. -/
theorem c3_word_frequency (anchors : List ReportEntry) (w : String)
    (c : Nat) :
    ((compare_anchor_themes anchors).repeated_words.lookup w = some c ↔
      ((allRetainedTokens anchors).count w = c ∧ 2 ≤ c)) ∧
    (compare_anchor_themes anchors).total_unique_words =
      (allRetainedTokens anchors).dedup.length := by
  have hrep : (compare_anchor_themes anchors).repeated_words =
      (wordFreq anchors).filter (fun p => 2 ≤ p.2) := rfl
  have htot : (compare_anchor_themes anchors).total_unique_words =
      (wordFreq anchors).length := rfl
  constructor
  · rw [hrep, filter_lookup_of_nodup _ _ _ (wordFreq_nodup anchors),
      wordFreq_lookup anchors w]
    by_cases hmem : w ∈ allRetainedTokens anchors
    · rw [if_pos hmem]
      by_cases h2 : 2 ≤ (allRetainedTokens anchors).count w
      · simp only [if_pos (by simpa using h2 :
          ((fun p => decide (2 ≤ p.2))
            (w, (allRetainedTokens anchors).count w)) = true)]
        constructor
        · intro he
          have := Option.some.inj he
          exact ⟨this, this ▸ h2⟩
        · rintro ⟨hcc, _⟩
          rw [hcc]
      · simp only [if_neg (by simpa using h2 :
          ¬ ((fun p => decide (2 ≤ p.2))
            (w, (allRetainedTokens anchors).count w)) = true)]
        constructor
        · intro he
          exact absurd he (by simp)
        · rintro ⟨hcc, h2'⟩
          exact absurd (hcc ▸ h2') h2
    · rw [if_neg hmem]
      constructor
      · intro he
        exact absurd he (by simp)
      · rintro ⟨hcc, h2'⟩
        have h0 : (allRetainedTokens anchors).count w = 0 :=
          List.count_eq_zero.mpr hmem
        exfalso
        omega
  · rw [htot]
    have hkeys_mem : ∀ x, x ∈ (wordFreq anchors).map Prod.fst ↔
        x ∈ allRetainedTokens anchors := by
      intro x
      constructor
      · intro hx
        have hs : ((wordFreq anchors).lookup x).isSome := by
          rw [List.lookup_isSome_iff]
          obtain ⟨p, hp, hfst⟩ := List.mem_map.mp hx
          exact ⟨p, hp, by simp [hfst]⟩
        rw [wordFreq_lookup anchors x] at hs
        by_cases hmem : x ∈ allRetainedTokens anchors
        · exact hmem
        · rw [if_neg hmem] at hs
          simp at hs
      · intro hx
        have hs : ((wordFreq anchors).lookup x).isSome := by
          rw [wordFreq_lookup anchors x, if_pos hx]
          rfl
        rw [List.lookup_isSome_iff] at hs
        obtain ⟨p, hp, he⟩ := hs
        exact List.mem_map.mpr ⟨p, hp, (eq_of_beq he).symm⟩
    have h1 : (wordFreq anchors).length =
        ((wordFreq anchors).map Prod.fst).length :=
      (List.length_map _ _).symm
    have h2 : ((wordFreq anchors).map Prod.fst).toFinset =
        (allRetainedTokens anchors).toFinset := by
      ext x
      simp only [List.mem_toFinset]
      exact hkeys_mem x
    rw [h1, ← List.toFinset_card_of_nodup (wordFreq_nodup anchors), h2,
      List.card_toFinset]

/-- A bare anchor entry carrying only a Hebrew text, for concrete theme
comparisons. -/
def mkAnchorEntry (hebrew : String) : ReportEntry :=
  { position := "", key := "", verse_info := default, index := 0,
    hebrew := hebrew, transliteration := "", jps1917 := "", web := "",
    interpretation_note := "" }

/-- C3 counterexample: with a single anchor whose Hebrew text repeats the
token `aaa` twice, `compare_anchor_themes` reports `aaa` as a repeated
word with count 2 even though it occurs in only one distinct anchor, so
`repeated_words` is not the set of tokens appearing in at least 2 distinct
anchors. -/
theorem c3_counterexample :
    (compare_anchor_themes [mkAnchorEntry "aaa aaa"]).repeated_words =
      [("aaa", 2)] ∧
    (List.filter (fun a => "aaa" ∈ retainedTokens a.hebrew)
      [mkAnchorEntry "aaa aaa"]).length = 1 := by
  constructor
  · rfl
  · rfl

/-- Witness for C3 amended: with two anchors sharing the token `xxx`, the
amended characterization puts `("xxx", 2)` in `repeated_words`. -/
theorem c3_word_frequency_witness :
    ((allRetainedTokens [mkAnchorEntry "xxx yyy", mkAnchorEntry "xxx zzz"]
        ).count "xxx" = 2 ∧ 2 ≤ 2) ∧
    (compare_anchor_themes [mkAnchorEntry "xxx yyy", mkAnchorEntry "xxx zzz"]
        ).repeated_words.lookup "xxx" = some 2 :=
  ⟨⟨by decide, by decide⟩,
    (c3_word_frequency [mkAnchorEntry "xxx yyy", mkAnchorEntry "xxx zzz"]
      "xxx" 2).1.mpr ⟨by decide, by decide⟩⟩

/-! ## C8: translation failure tolerance -/

/-- C8: when the remote fetches fail (any exception the `try`/`except`
blocks catch, including malformed responses), `get_verse_all_translations`
raises nothing and returns the full five-field record with the sentinel
placeholder strings for each text form; and the enriched anchor report is
assembled in full — five entries, each carrying the placeholders — even
when every translation call fails. -/
theorem c8_translation_fallbacks :
    (∀ (book_id : String) (chapter verse : Nat),
      get_verse_all_translations book_id chapter verse (.error ())
          (.error ()) =
        { hebrew := "[Hebrew text unavailable]", transliteration := "",
          jps1917 := "[Translation unavailable]",
          web := "[WEB translation unavailable]",
          ref := get_verse_ref book_id chapter verse }) ∧
    (∀ vs : List Verse, vs ≠ [] →
      ∃ entries : List ReportEntry,
        get_full_chiasm_anchors vs (fun _ _ _ => .error ())
            (fun _ _ _ => .error ()) = .ok entries ∧
        entries.length = 5 ∧
        ∀ e ∈ entries,
          e.hebrew = "[Hebrew text unavailable]" ∧
          e.transliteration = "" ∧
          e.jps1917 = "[Translation unavailable]" ∧
          e.web = "[WEB translation unavailable]") := by
  constructor
  · intro book_id chapter verse
    rfl
  · intro vs h
    rw [get_full_chiasm_anchors, get_chiasm_anchors_eq vs h]
    refine ⟨_, rfl, rfl, ?_⟩
    intro e he
    simp only [List.mem_cons, List.not_mem_nil, or_false] at he
    rcases he with rfl | rfl | rfl | rfl | rfl <;>
      exact ⟨rfl, rfl, rfl, rfl⟩

/-- Witness for C8: the full anchor report of the concrete two-verse
sequence is assembled with all placeholders when every fetch fails. -/
theorem c8_translation_fallbacks_witness :
    sampleVerses ≠ [] ∧
    (∃ entries : List ReportEntry,
      get_full_chiasm_anchors sampleVerses (fun _ _ _ => .error ())
          (fun _ _ _ => .error ()) = .ok entries ∧
      entries.length = 5 ∧
      ∀ e ∈ entries,
        e.hebrew = "[Hebrew text unavailable]" ∧
        e.transliteration = "" ∧
        e.jps1917 = "[Translation unavailable]" ∧
        e.web = "[WEB translation unavailable]") :=
  ⟨by decide, c8_translation_fallbacks.2 sampleVerses (by decide)⟩

end ChiasmExplorer
